import Mathlib

/-!
Shallow embedding of the go_bank transfer core (db/sqlc/store.go,
db/queries/account.sql, api/account.go) and proofs of the spec claims.

The database is modelled as an explicit record of rows; each sqlc query
(CreateTransfer, CreateEntry, UpdateAccountBalanceByID, GetAccountById)
becomes a pure function on that record.  Failures that in the real system
come from the storage engine are modelled by a fault oracle (`Faults`,
`TxFaults`) that can make any named statement or the begin/commit/rollback
calls fail, mirroring fault injection in the Go tests.  `execTx` and
`TransferTx` are translated statement-by-statement from store.go, including
the final `return nil` of the unit-of-work closure.
-/

namespace GoBank

/-- Errors surfaced by the storage layer.  `noRows` models the no-rows
error value of pgx/v5, returned by a `:one` query of the pgx-backed store
when its result is empty ("no rows in result set"); `sqlErrNoRows` the
distinct sentinel error value of package database/sql (sql.ErrNoRows,
"sql: no rows in result set") — two different Go error values that are
never `==` to each other; `fkViolation` a foreign-key failure, `injected`
a fault injected at a statement, and `composite` the error built by
execTx with `fmt.Errorf("tx error: %v, rb error: %v", err, rbErr)`. -/
inductive Err where
  | noRows : Err
  | sqlErrNoRows : Err
  | fkViolation : Err
  | injected : Nat → Err
  | composite : Err → Err → Err
deriving DecidableEq, Repr

/-- Account row: accounts(id, owner, balance, currency, created_at). -/
structure Account where
  id : Int
  owner : String
  balance : Int
  currency : String
  createdAt : Int
deriving DecidableEq, Repr

/-- Entry row: entries(id, account_id, amount, created_at). -/
structure Entry where
  id : Int
  accountID : Int
  amount : Int
deriving DecidableEq, Repr

/-- Transfer row: transfers(id, from_account_id, to_account_id, amount, created_at). -/
structure Transfer where
  id : Int
  fromAccountID : Int
  toAccountID : Int
  amount : Int
deriving DecidableEq, Repr

/-- Database state: the three tables, serial-id counters for the two
append-only tables, and `balanceTrace`, the ordered log of balance-update
statements executed (the observable lock-acquisition order, since each
UPDATE takes the row lock of the account it touches). -/
structure DBState where
  accounts : List Account
  entries : List Entry
  transfers : List Transfer
  nextEntryID : Int
  nextTransferID : Int
  balanceTrace : List (Int × Int)
deriving DecidableEq, Repr

/-- The five fallible statements inside the TransferTx unit of work. -/
inductive Step where
  | createTransferStep : Step
  | createEntry1 : Step
  | createEntry2 : Step
  | updBal1 : Step
  | updBal2 : Step
deriving DecidableEq, Repr

/-- Fault oracle for statements inside the unit of work. -/
structure Faults where
  inject : Step → Option Err

/-- Fault oracle for BeginTx / Commit / Rollback. -/
structure TxFaults where
  beginErr : Option Err
  commitErr : Option Err
  rollbackErr : Option Err

/-- GetAccountById: select * from accounts where id = $1 limit 1. -/
def DBState.findAccount (db : DBState) (accountID : Int) : Option Account :=
  db.accounts.find? (fun a => a.id == accountID)

/-- Sum of all account balances. -/
def DBState.totalBalance (db : DBState) : Int :=
  (db.accounts.map (fun a => a.balance)).sum

/-- Per-row effect of `update accounts set balance = balance + amount
where id = account_id` (account.sql): a row whose id matches gets its
stored balance incremented; every other row is untouched. -/
def updBalanceRow (accountID amount : Int) (b : Account) : Account :=
  if b.id == accountID then { b with balance := b.balance + amount } else b

/-- UpdateAccountBalanceByID (account.sql): the in-engine atomic
read-modify-write `update accounts set balance = balance + amount where
id = account_id returning *`.  No row with the id gives the no-rows
error; otherwise the stored balance is incremented in one indivisible
step and the post-update row returned.  The update is also appended to
`balanceTrace` (its lock acquisition). -/
def updateAccountBalanceByID (f : Faults) (s : Step) (db : DBState)
    (accountID amount : Int) : Except Err (Account × DBState) :=
  match f.inject s with
  | some e => .error e
  | none =>
    match db.findAccount accountID with
    | none => .error .noRows
    | some a =>
      .ok ({ a with balance := a.balance + amount },
        { db with
          accounts := db.accounts.map (updBalanceRow accountID amount),
          balanceTrace := db.balanceTrace ++ [(accountID, amount)] })

/-- CreateEntry: insert into entries(account_id, amount) returning *; the
engine enforces the foreign key from entries.account_id to accounts.id. -/
def createEntry (f : Faults) (s : Step) (db : DBState)
    (accountID amount : Int) : Except Err (Entry × DBState) :=
  match f.inject s with
  | some e => .error e
  | none =>
    if (db.findAccount accountID).isSome then
      let e : Entry := ⟨db.nextEntryID, accountID, amount⟩
      .ok (e, { db with entries := db.entries ++ [e], nextEntryID := db.nextEntryID + 1 })
    else .error .fkViolation

/-- CreateTransfer: insert into transfers(from_account_id, to_account_id,
amount) returning *; both account references are foreign keys. -/
def createTransfer (f : Faults) (db : DBState)
    (fromAccountID toAccountID amount : Int) : Except Err (Transfer × DBState) :=
  match f.inject .createTransferStep with
  | some e => .error e
  | none =>
    if (db.findAccount fromAccountID).isSome && (db.findAccount toAccountID).isSome then
      let t : Transfer := ⟨db.nextTransferID, fromAccountID, toAccountID, amount⟩
      .ok (t, { db with transfers := db.transfers ++ [t],
                        nextTransferID := db.nextTransferID + 1 })
    else .error .fkViolation

/-- Go zero value of Account, returned alongside a non-nil error. -/
def Account.zero : Account := ⟨0, "", 0, "", 0⟩

/-- Go zero value of Entry. -/
def Entry.zero : Entry := ⟨0, 0, 0⟩

/-- Go zero value of Transfer. -/
def Transfer.zero : Transfer := ⟨0, 0, 0, 0⟩

/-- addMoney (store.go): two consecutive UpdateAccountBalanceByID calls;
returns early with the error of the first failing call, with the Go zero
Account in the not-yet-assigned named results. -/
def addMoney (f : Faults) (q : DBState) (accountID1 amount1 accountID2 amount2 : Int) :
    Account × Account × Option Err × DBState :=
  match updateAccountBalanceByID f .updBal1 q accountID1 amount1 with
  | .error e => (Account.zero, Account.zero, some e, q)
  | .ok (a1, q1) =>
    match updateAccountBalanceByID f .updBal2 q1 accountID2 amount2 with
    | .error e => (a1, Account.zero, some e, q1)
    | .ok (a2, q2) => (a1, a2, none, q2)

/-- TransferTxParams (store.go). -/
structure TransferTxParams where
  fromAccountID : Int
  toAccountID : Int
  amount : Int
deriving DecidableEq, Repr

/-- TransferTxResult (store.go). -/
structure TransferTxResult where
  transfer : Transfer
  fromAccount : Account
  toAccount : Account
  fromEntry : Entry
  toEntry : Entry
deriving DecidableEq, Repr

/-- Go zero value of TransferTxResult: the `var result TransferTxResult`
declaration in TransferTx. -/
def TransferTxResult.zero : TransferTxResult :=
  ⟨Transfer.zero, Account.zero, Account.zero, Entry.zero, Entry.zero⟩

/-- The unit-of-work closure of TransferTx (store.go), translated
statement-by-statement.  Returns the transaction-scoped database state,
the `result` captured variable as assigned so far, and the error value the
closure returns.  Note the source closure ends with `return nil` after the
addMoney branches: the error assigned from addMoney is discarded, so both
addMoney branches here yield a `none` error, exactly as the Go code
does. -/
def transferTxFn (f : Faults) (arg : TransferTxParams) (q : DBState) :
    DBState × TransferTxResult × Option Err :=
  match createTransfer f q arg.fromAccountID arg.toAccountID arg.amount with
  | .error e => (q, TransferTxResult.zero, some e)
  | .ok (t, q1) =>
    let r1 := { TransferTxResult.zero with transfer := t }
    match createEntry f .createEntry1 q1 arg.fromAccountID (-arg.amount) with
    | .error e => (q1, r1, some e)
    | .ok (e1, q2) =>
      let r2 := { r1 with fromEntry := e1 }
      match createEntry f .createEntry2 q2 arg.toAccountID arg.amount with
      | .error e => (q2, r2, some e)
      | .ok (e2, q3) =>
        let r3 := { r2 with toEntry := e2 }
        if arg.fromAccountID < arg.toAccountID then
          match addMoney f q3 arg.fromAccountID (-arg.amount) arg.toAccountID arg.amount with
          | (a1, a2, _errIgnored, q4) =>
            (q4, { r3 with fromAccount := a1, toAccount := a2 }, none)
        else
          match addMoney f q3 arg.toAccountID arg.amount arg.fromAccountID (-arg.amount) with
          | (a1, a2, _errIgnored, q4) =>
            (q4, { r3 with toAccount := a1, fromAccount := a2 }, none)

/-- execTx (store.go): begins a transaction, runs the unit of work `fn`
against a transaction-scoped handle, rolls back on a unit-of-work error
(building the composite error when rollback itself fails), otherwise
commits.  `σ` is the state of the variables the Go closure captures
(`result` in TransferTx); `init` is their value when the closure never
runs. -/
def execTx {σ : Type} (tf : TxFaults) (fn : DBState → DBState × σ × Option Err)
    (init : σ) (db : DBState) : DBState × σ × Option Err :=
  match tf.beginErr with
  | some e => (db, init, some e)
  | none =>
    match fn db with
    | (txDb, s, ferr) =>
      match ferr with
      | some e =>
        match tf.rollbackErr with
        | some rbErr => (db, s, some (.composite e rbErr))
        | none => (db, s, some e)
      | none =>
        match tf.commitErr with
        | some ce => (db, s, some ce)
        | none => (txDb, s, none)

/-- TransferTx (store.go): the unit of work run through execTx; returns
the committed (or unchanged) database, the result record and the error. -/
def TransferTx (f : Faults) (tf : TxFaults) (arg : TransferTxParams) (db : DBState) :
    DBState × TransferTxResult × Option Err :=
  execTx tf (transferTxFn f arg) TransferTxResult.zero db

/-- A fault oracle injecting no statement faults (the healthy engine). -/
def noFaults : Faults := ⟨fun _ => none⟩

/-- No begin/commit/rollback faults. -/
def noTxFaults : TxFaults := ⟨none, none, none⟩

/-- Concrete fixture accounts and database for witnesses and
counterexamples. -/
def acctA : Account := ⟨1, "alice", 100, "USD", 0⟩

/-- Second fixture account. -/
def acctB : Account := ⟨2, "bob", 50, "USD", 0⟩

/-- Fixture database holding the two fixture accounts. -/
def db0 : DBState := ⟨[acctA, acctB], [], [], 1, 1, []⟩

/-- Transfer of 10 from account 1 to account 2. -/
def argAB : TransferTxParams := ⟨1, 2, 10⟩

/-- Oracle failing exactly the first balance update. -/
def failUpd1 : Faults := ⟨fun s => if s = .updBal1 then some (.injected 7) else none⟩

/-- Oracle failing exactly the second balance update. -/
def failUpd2 : Faults := ⟨fun s => if s = .updBal2 then some (.injected 8) else none⟩

/-- A sequence of transfer invocations against the healthy engine, each
threading the committed state to the next. -/
def applyTransfers (ps : List TransferTxParams) (db : DBState) : DBState :=
  ps.foldl (fun d p => (TransferTx noFaults noTxFaults p d).1) db

/-- Number of account rows carrying a given id (one under the primary
key). -/
def countID (l : List Account) (i : Int) : Nat :=
  (l.filter (fun a => a.id == i)).length

/-- Lock-acquisition sequence of one transfer invocation: the account ids
of its balance updates in execution order.  Each UPDATE statement takes
the row lock of the account it touches, so this is the order in which the
transaction requests row locks. -/
def lockSeq (arg : TransferTxParams) (db : DBState) : List Int :=
  (((transferTxFn noFaults arg db).1.balanceTrace).drop db.balanceTrace.length).map Prod.fst

/-- In lock sequence `seq`, lock `x` is requested strictly before lock
`y`. -/
def acquiresBefore (seq : List Int) (x y : Int) : Prop :=
  ∃ i j : Nat, i < j ∧ seq.get? i = some x ∧ seq.get? j = some y

/-- A circular wait between two transactions: the first holds a lock `x`
it acquired before the lock `y` it now needs, while the second holds `y`,
acquired before the `x` it now needs.  Row-level deadlock between two
transfers requires exactly this shape. -/
def circularWait (s1 s2 : List Int) : Prop :=
  ∃ x y, acquiresBefore s1 x y ∧ acquiresBefore s2 y x

/-- Outcome of the getAccount HTTP handler: status code, response body on
success, and whether the store was reached. -/
structure GetAccountResponse where
  status : Nat
  body : Option Account
  storeCalled : Bool
deriving DecidableEq, Repr

/-- GetAccountById backed by the database (account.sql `:one` query, run
through the sqlc pgx/v5-generated store): pgx's no-rows error value when
the account is absent, the row otherwise. -/
def getAccountById (db : DBState) (accountID : Int) : Except Err Account :=
  match db.findAccount accountID with
  | none => .error .noRows
  | some a => .ok a

/-- getAccount (api/account.go): ShouldBindUri with binding
`required,min=1` rejects an absent/unparseable id (modelled as `none`)
and a non-positive id with 400 before any store call; then the store's
outcome is mapped by comparing the error with `err == sql.ErrNoRows` —
the database/sql sentinel, not the pgx no-rows value the pgx-backed
store actually returns — giving 404 only on that exact sentinel, 500 on
every other error, and 200 with the serialized account on success. -/
def getAccount (rawID : Option Int) (store : Int → Except Err Account) :
    GetAccountResponse :=
  match rawID with
  | none => ⟨400, none, false⟩
  | some accountID =>
    if accountID < 1 then ⟨400, none, false⟩
    else
      match store accountID with
      | .error e =>
        if e = .sqlErrNoRows then ⟨404, none, true⟩ else ⟨500, none, true⟩
      | .ok a => ⟨200, some a, true⟩

end GoBank

namespace GoBank

/-- The row updater never changes an account's id. -/
theorem updBalanceRow_id (i δ : Int) (b : Account) : (updBalanceRow i δ b).id = b.id := by
  unfold updBalanceRow
  split <;> rfl

/-- The row updater never changes owner. -/
theorem updBalanceRow_owner (i δ : Int) (b : Account) : (updBalanceRow i δ b).owner = b.owner := by
  unfold updBalanceRow
  split <;> rfl

/-- The row updater never changes currency. -/
theorem updBalanceRow_currency (i δ : Int) (b : Account) :
    (updBalanceRow i δ b).currency = b.currency := by
  unfold updBalanceRow
  split <;> rfl

/-- The row updater never changes created_at. -/
theorem updBalanceRow_createdAt (i δ : Int) (b : Account) :
    (updBalanceRow i δ b).createdAt = b.createdAt := by
  unfold updBalanceRow
  split <;> rfl

/-- A row whose id differs from the updated id is left untouched. -/
theorem updBalanceRow_ne (i δ : Int) (b : Account) (h : b.id ≠ i) :
    updBalanceRow i δ b = b := by
  unfold updBalanceRow
  simp [h]

/-- A row whose id matches gets exactly the delta. -/
theorem updBalanceRow_eq (i δ : Int) (b : Account) (h : b.id = i) :
    updBalanceRow i δ b = { b with balance := b.balance + δ } := by
  unfold updBalanceRow
  simp [h]

/-- Searching by id commutes with mapping an id-preserving function. -/
theorem find?_map_id_preserving (l : List Account) (g : Account → Account)
    (hid : ∀ a, (g a).id = a.id) (j : Int) :
    (l.map g).find? (fun a => a.id == j) = (l.find? (fun a => a.id == j)).map g := by
  induction l with
  | nil => rfl
  | cons a l ih =>
    by_cases h : a.id = j
    · rw [List.map_cons, List.find?_cons_of_pos, List.find?_cons_of_pos] <;>
        simp [hid, h]
    · rw [List.map_cons, List.find?_cons_of_neg, List.find?_cons_of_neg, ih] <;>
        simp [hid, h]

/-- Searching by id commutes with a balance update pass. -/
theorem find?_map_updBalanceRow (l : List Account) (i δ j : Int) :
    (l.map (updBalanceRow i δ)).find? (fun a => a.id == j)
      = (l.find? (fun a => a.id == j)).map (updBalanceRow i δ) :=
  find?_map_id_preserving l _ (updBalanceRow_id i δ) j

/-- A found account matches the id it was searched by. -/
theorem findAccount_id (db : DBState) (j : Int) (a : Account)
    (h : db.findAccount j = some a) : a.id = j := by
  have := List.find?_some h
  simpa using this

/-- CreateTransfer succeeds with no fault and both accounts present. -/
theorem createTransfer_ok (db : DBState) (f t m : Int)
    (hf : (db.findAccount f).isSome) (ht : (db.findAccount t).isSome) :
    createTransfer noFaults db f t m =
      .ok (⟨db.nextTransferID, f, t, m⟩,
        { db with transfers := db.transfers ++ [⟨db.nextTransferID, f, t, m⟩],
                  nextTransferID := db.nextTransferID + 1 }) := by
  simp [createTransfer, noFaults, hf, ht]

/-- CreateEntry succeeds with no fault and the account present. -/
theorem createEntry_ok (s : Step) (db : DBState) (i m : Int)
    (hi : (db.findAccount i).isSome) :
    createEntry noFaults s db i m =
      .ok (⟨db.nextEntryID, i, m⟩,
        { db with entries := db.entries ++ [⟨db.nextEntryID, i, m⟩],
                  nextEntryID := db.nextEntryID + 1 }) := by
  simp [createEntry, noFaults, hi]

/-- UpdateAccountBalanceByID succeeds with no fault and the account
present, incrementing the stored balance and logging the update. -/
theorem updateBalance_ok (s : Step) (db : DBState) (i δ : Int) (a : Account)
    (h : db.findAccount i = some a) :
    updateAccountBalanceByID noFaults s db i δ =
      .ok ({ a with balance := a.balance + δ },
        { db with accounts := db.accounts.map (updBalanceRow i δ),
                  balanceTrace := db.balanceTrace ++ [(i, δ)] }) := by
  simp [updateAccountBalanceByID, noFaults, h]

/-- With healthy begin/commit/rollback, TransferTx commits the state its
unit of work produced when the unit of work reports no error. -/
theorem TransferTx_commit (f : Faults) (arg : TransferTxParams) (db txDb : DBState)
    (s : TransferTxResult) (h : transferTxFn f arg db = (txDb, s, none)) :
    TransferTx f noTxFaults arg db = (txDb, s, none) := by
  simp [TransferTx, execTx, noTxFaults, h]

end GoBank

namespace GoBank


/-- Searching by id is unaffected by composing with the row updater. -/
theorem find?_pred_comp (i δ j : Int) :
    ((fun a => a.id == j) ∘ updBalanceRow i δ) = (fun a : Account => a.id == j) := by
  funext a
  simp [Function.comp, updBalanceRow_id]

/-- Closed form of a healthy run with fromAccountID < toAccountID: the
transfer row and both entries are appended, the from-delta is applied
first, then the to-delta, and the closure reports no error. -/
theorem transferTxFn_run_lt (arg : TransferTxParams) (db : DBState) (aF aT : Account)
    (hf : db.findAccount arg.fromAccountID = some aF)
    (ht : db.findAccount arg.toAccountID = some aT)
    (hlt : arg.fromAccountID < arg.toAccountID) :
    transferTxFn noFaults arg db =
      ({ db with
          accounts := (db.accounts.map (updBalanceRow arg.fromAccountID (-arg.amount))).map
            (updBalanceRow arg.toAccountID arg.amount),
          entries := db.entries ++ [⟨db.nextEntryID, arg.fromAccountID, -arg.amount⟩]
            ++ [⟨db.nextEntryID + 1, arg.toAccountID, arg.amount⟩],
          transfers := db.transfers
            ++ [⟨db.nextTransferID, arg.fromAccountID, arg.toAccountID, arg.amount⟩],
          nextEntryID := db.nextEntryID + 1 + 1,
          nextTransferID := db.nextTransferID + 1,
          balanceTrace := db.balanceTrace ++ [(arg.fromAccountID, -arg.amount)]
            ++ [(arg.toAccountID, arg.amount)] },
       { transfer := ⟨db.nextTransferID, arg.fromAccountID, arg.toAccountID, arg.amount⟩,
         fromAccount := { aF with balance := aF.balance + -arg.amount },
         toAccount := { aT with balance := aT.balance + arg.amount },
         fromEntry := ⟨db.nextEntryID, arg.fromAccountID, -arg.amount⟩,
         toEntry := ⟨db.nextEntryID + 1, arg.toAccountID, arg.amount⟩ },
       none) := by
  have htid : aT.id = arg.toAccountID := findAccount_id db _ aT ht
  have hstable : updBalanceRow arg.fromAccountID (-arg.amount) aT = aT := by
    apply updBalanceRow_ne
    rw [htid]
    exact ne_of_gt hlt
  simp only [DBState.findAccount] at hf ht
  simp [transferTxFn, createTransfer, createEntry, updateAccountBalanceByID, addMoney,
    noFaults, DBState.findAccount, hf, ht, hlt, find?_map_updBalanceRow, find?_pred_comp, hstable]

end GoBank

namespace GoBank

/-- Closed form of a healthy run with toAccountID < fromAccountID: the
else-branch of TransferTx applies the to-delta first, then the
from-delta. -/
theorem transferTxFn_run_gt (arg : TransferTxParams) (db : DBState) (aF aT : Account)
    (hf : db.findAccount arg.fromAccountID = some aF)
    (ht : db.findAccount arg.toAccountID = some aT)
    (hgt : arg.toAccountID < arg.fromAccountID) :
    transferTxFn noFaults arg db =
      ({ db with
          accounts := (db.accounts.map (updBalanceRow arg.toAccountID arg.amount)).map
            (updBalanceRow arg.fromAccountID (-arg.amount)),
          entries := db.entries ++ [⟨db.nextEntryID, arg.fromAccountID, -arg.amount⟩]
            ++ [⟨db.nextEntryID + 1, arg.toAccountID, arg.amount⟩],
          transfers := db.transfers
            ++ [⟨db.nextTransferID, arg.fromAccountID, arg.toAccountID, arg.amount⟩],
          nextEntryID := db.nextEntryID + 1 + 1,
          nextTransferID := db.nextTransferID + 1,
          balanceTrace := db.balanceTrace ++ [(arg.toAccountID, arg.amount)]
            ++ [(arg.fromAccountID, -arg.amount)] },
       { transfer := ⟨db.nextTransferID, arg.fromAccountID, arg.toAccountID, arg.amount⟩,
         fromAccount := { aF with balance := aF.balance + -arg.amount },
         toAccount := { aT with balance := aT.balance + arg.amount },
         fromEntry := ⟨db.nextEntryID, arg.fromAccountID, -arg.amount⟩,
         toEntry := ⟨db.nextEntryID + 1, arg.toAccountID, arg.amount⟩ },
       none) := by
  have hfid : aF.id = arg.fromAccountID := findAccount_id db _ aF hf
  have hstable : updBalanceRow arg.toAccountID arg.amount aF = aF := by
    apply updBalanceRow_ne
    rw [hfid]
    exact ne_of_gt hgt
  have hnlt : ¬ arg.fromAccountID < arg.toAccountID := not_lt_of_gt hgt
  simp only [DBState.findAccount] at hf ht
  simp [transferTxFn, createTransfer, createEntry, updateAccountBalanceByID, addMoney,
    noFaults, DBState.findAccount, hf, ht, hnlt, find?_map_updBalanceRow, find?_pred_comp,
    hstable]

/-- Closed form of a healthy run with fromAccountID = toAccountID = A: the
else-branch runs, the transfer and both entries all reference A, +amount
is applied to A first and then -amount. -/
theorem transferTxFn_run_eq (A m : Int) (db : DBState) (aA : Account)
    (h : db.findAccount A = some aA) :
    transferTxFn noFaults ⟨A, A, m⟩ db =
      ({ db with
          accounts := (db.accounts.map (updBalanceRow A m)).map (updBalanceRow A (-m)),
          entries := db.entries ++ [⟨db.nextEntryID, A, -m⟩]
            ++ [⟨db.nextEntryID + 1, A, m⟩],
          transfers := db.transfers ++ [⟨db.nextTransferID, A, A, m⟩],
          nextEntryID := db.nextEntryID + 1 + 1,
          nextTransferID := db.nextTransferID + 1,
          balanceTrace := db.balanceTrace ++ [(A, m)] ++ [(A, -m)] },
       { transfer := ⟨db.nextTransferID, A, A, m⟩,
         fromAccount := { aA with balance := aA.balance + m + -m },
         toAccount := { aA with balance := aA.balance + m },
         fromEntry := ⟨db.nextEntryID, A, -m⟩,
         toEntry := ⟨db.nextEntryID + 1, A, m⟩ },
       none) := by
  have haid : aA.id = A := findAccount_id db _ aA h
  have hmatch : updBalanceRow A m aA = { aA with balance := aA.balance + m } :=
    updBalanceRow_eq A m aA haid
  simp only [DBState.findAccount] at h
  simp [transferTxFn, createTransfer, createEntry, updateAccountBalanceByID, addMoney,
    noFaults, DBState.findAccount, h, find?_map_updBalanceRow, find?_pred_comp, hmatch]

end GoBank

namespace GoBank

/-- Balance-update passes change the total of balances by delta times the
number of rows carrying the updated id. -/
theorem sum_map_updBalanceRow (l : List Account) (i δ : Int) :
    ((l.map (updBalanceRow i δ)).map (fun a => a.balance)).sum
      = (l.map (fun a => a.balance)).sum + δ * (countID l i : Int) := by
  induction l with
  | nil => simp [countID]
  | cons a l ih =>
    by_cases h : a.id = i
    · simp only [List.map_cons, List.sum_cons, ih, updBalanceRow_eq _ _ _ h,
        countID, List.filter_cons, h, beq_self_eq_true, if_true, List.length_cons]
      push_cast
      ring
    · have hbe : (a.id == i) = false := by simpa using h
      simp only [List.map_cons, List.sum_cons, ih, updBalanceRow_ne _ _ _ h,
        countID, List.filter_cons, hbe, Bool.false_eq_true, if_false]
      ring

/-- A balance-update pass does not change how many rows carry any id. -/
theorem countID_map_updBalanceRow (l : List Account) (i δ j : Int) :
    countID (l.map (updBalanceRow i δ)) j = countID l j := by
  induction l with
  | nil => rfl
  | cons a l ih =>
    by_cases h : a.id = j <;>
      simp [countID, List.filter_cons, updBalanceRow_id, h] at ih ⊢ <;>
      simpa [countID] using ih

/-- An id carried by no row has count zero. -/
theorem countID_eq_zero (l : List Account) (i : Int)
    (h : i ∉ l.map (fun a => a.id)) : countID l i = 0 := by
  induction l with
  | nil => rfl
  | cons a l ih =>
    simp only [List.map_cons, List.mem_cons] at h
    push_neg at h
    have ha : (a.id == i) = false := by simpa using fun hc => h.1 hc.symm
    simp only [countID, List.filter_cons, ha, Bool.false_eq_true, if_false]
    exact ih h.2

/-- Under the primary key (no duplicate ids), an id found in the table is
carried by exactly one row. -/
theorem countID_eq_one (l : List Account) (i : Int) (a : Account)
    (hnd : (l.map (fun a => a.id)).Nodup)
    (h : l.find? (fun a => a.id == i) = some a) : countID l i = 1 := by
  induction l with
  | nil => simp at h
  | cons b l ih =>
    simp only [List.map_cons, List.nodup_cons] at hnd
    by_cases hb : b.id = i
    · have hz : countID l i = 0 := by
        apply countID_eq_zero
        rw [← hb]
        exact hnd.1
      have hbe : (b.id == i) = true := by simpa using hb
      simp only [countID, List.filter_cons, hbe, if_true, List.length_cons]
      simp only [countID] at hz
      omega
    · have hbe : (b.id == i) = false := by simpa using hb
      rw [List.find?_cons_of_neg _ (by simp [hbe])] at h
      have := ih hnd.2 h
      simp only [countID, List.filter_cons, hbe, Bool.false_eq_true, if_false]
      simpa [countID] using this

/-- Balance updates do not change the list of account ids. -/
theorem ids_map_updBalanceRow (l : List Account) (i δ : Int) :
    (l.map (updBalanceRow i δ)).map (fun a => a.id) = l.map (fun a => a.id) := by
  rw [List.map_map]
  apply List.map_congr_left
  intro a _
  exact updBalanceRow_id i δ a

end GoBank

namespace GoBank

/-- One healthy transfer neither creates nor destroys money, and leaves
the list of account ids unchanged. -/
theorem transferTx_step_facts (arg : TransferTxParams) (db : DBState) (aF aT : Account)
    (hnd : (db.accounts.map (fun a => a.id)).Nodup)
    (hf : db.findAccount arg.fromAccountID = some aF)
    (ht : db.findAccount arg.toAccountID = some aT) :
    (TransferTx noFaults noTxFaults arg db).1.totalBalance = db.totalBalance ∧
    (TransferTx noFaults noTxFaults arg db).1.accounts.map (fun a => a.id)
      = db.accounts.map (fun a => a.id) := by
  have hcF : countID db.accounts arg.fromAccountID = 1 := countID_eq_one _ _ aF hnd hf
  have hcT : countID db.accounts arg.toAccountID = 1 := countID_eq_one _ _ aT hnd ht
  rcases lt_trichotomy arg.fromAccountID arg.toAccountID with hlt | heq | hgt
  · rw [TransferTx_commit _ _ _ _ _ (transferTxFn_run_lt arg db aF aT hf ht hlt)]
    constructor
    · simp only [DBState.totalBalance, sum_map_updBalanceRow, countID_map_updBalanceRow,
        hcF, hcT]
      ring
    · simp only [ids_map_updBalanceRow]
  · obtain ⟨fID, tID, m⟩ := arg
    simp only at heq
    subst heq
    rw [TransferTx_commit _ _ _ _ _ (transferTxFn_run_eq fID m db aF hf)]
    constructor
    · simp only [DBState.totalBalance, sum_map_updBalanceRow, countID_map_updBalanceRow]
      ring
    · simp only [ids_map_updBalanceRow]
  · rw [TransferTx_commit _ _ _ _ _ (transferTxFn_run_gt arg db aF aT hf ht hgt)]
    constructor
    · simp only [DBState.totalBalance, sum_map_updBalanceRow, countID_map_updBalanceRow,
        hcF, hcT]
      ring
    · simp only [ids_map_updBalanceRow]

end GoBank

namespace GoBank

/-- An account id is found exactly when some row carries it. -/
theorem findAccount_isSome_iff_mem (db : DBState) (j : Int) :
    (db.findAccount j).isSome = true ↔ j ∈ db.accounts.map (fun a => a.id) := by
  rw [DBState.findAccount, List.find?_isSome, List.mem_map]
  constructor
  · rintro ⟨x, hx, hpx⟩
    exact ⟨x, hx, by simpa using hpx⟩
  · rintro ⟨x, hx, hpx⟩
    exact ⟨x, hx, by simpa using hpx⟩

/-- Searching by id commutes with two successive balance update passes. -/
theorem find?_map_map_updBalanceRow (l : List Account) (i1 δ1 i2 δ2 j : Int) :
    ((l.map (updBalanceRow i1 δ1)).map (updBalanceRow i2 δ2)).find? (fun a => a.id == j)
      = ((l.find? (fun a => a.id == j)).map (updBalanceRow i1 δ1)).map
          (updBalanceRow i2 δ2) := by
  rw [find?_map_updBalanceRow, find?_map_updBalanceRow]

/-- A healthy transfer between two distinct existing accounts debits the
from-account by exactly the amount, credits the to-account by exactly the
amount, and leaves every other account row untouched. -/
theorem transferTx_balances (arg : TransferTxParams) (db : DBState) (aF aT : Account)
    (hf : db.findAccount arg.fromAccountID = some aF)
    (ht : db.findAccount arg.toAccountID = some aT)
    (hne : arg.fromAccountID ≠ arg.toAccountID) :
    ((TransferTx noFaults noTxFaults arg db).1.findAccount arg.fromAccountID).map
        (fun a => a.balance) = some (aF.balance - arg.amount) ∧
    ((TransferTx noFaults noTxFaults arg db).1.findAccount arg.toAccountID).map
        (fun a => a.balance) = some (aT.balance + arg.amount) ∧
    ∀ b ∈ db.accounts, b.id ≠ arg.fromAccountID → b.id ≠ arg.toAccountID →
      b ∈ (TransferTx noFaults noTxFaults arg db).1.accounts := by
  have hfid : aF.id = arg.fromAccountID := findAccount_id db _ aF hf
  have htid : aT.id = arg.toAccountID := findAccount_id db _ aT ht
  have hF1 : updBalanceRow arg.fromAccountID (-arg.amount) aF
      = { aF with balance := aF.balance + -arg.amount } :=
    updBalanceRow_eq _ _ _ hfid
  have hT1 : updBalanceRow arg.toAccountID arg.amount aT
      = { aT with balance := aT.balance + arg.amount } :=
    updBalanceRow_eq _ _ _ htid
  have hF2 : updBalanceRow arg.toAccountID arg.amount
      ({ aF with balance := aF.balance + -arg.amount })
      = { aF with balance := aF.balance + -arg.amount } := by
    apply updBalanceRow_ne
    simpa [hfid] using hne
  have hT2 : updBalanceRow arg.fromAccountID (-arg.amount)
      ({ aT with balance := aT.balance + arg.amount })
      = { aT with balance := aT.balance + arg.amount } := by
    apply updBalanceRow_ne
    simpa [htid] using hne.symm
  have hT0 : updBalanceRow arg.fromAccountID (-arg.amount) aT = aT := by
    apply updBalanceRow_ne
    simpa [htid] using hne.symm
  have hF0 : updBalanceRow arg.toAccountID arg.amount aF = aF := by
    apply updBalanceRow_ne
    simpa [hfid] using hne
  rcases lt_trichotomy arg.fromAccountID arg.toAccountID with hlt | heq | hgt
  · rw [TransferTx_commit _ _ _ _ _ (transferTxFn_run_lt arg db aF aT hf ht hlt)]
    refine ⟨?_, ?_, ?_⟩
    · simp only [DBState.findAccount] at hf ⊢
      rw [find?_map_map_updBalanceRow, hf]
      simp [hF1, hF2, sub_eq_add_neg]
    · simp only [DBState.findAccount] at ht ⊢
      rw [find?_map_map_updBalanceRow, ht]
      simp [hT0, hT1]
    · intro b hb hbf hbt
      refine List.mem_map.mpr ⟨updBalanceRow arg.fromAccountID (-arg.amount) b,
        List.mem_map.mpr ⟨b, hb, rfl⟩, ?_⟩
      rw [updBalanceRow_ne _ _ _ hbf, updBalanceRow_ne _ _ _ hbt]
  · exact absurd heq hne
  · rw [TransferTx_commit _ _ _ _ _ (transferTxFn_run_gt arg db aF aT hf ht hgt)]
    refine ⟨?_, ?_, ?_⟩
    · simp only [DBState.findAccount] at hf ⊢
      rw [find?_map_map_updBalanceRow, hf]
      simp [hF0, hF1, sub_eq_add_neg]
    · simp only [DBState.findAccount] at ht ⊢
      rw [find?_map_map_updBalanceRow, ht]
      simp [hT1, hT2]
    · intro b hb hbf hbt
      refine List.mem_map.mpr ⟨updBalanceRow arg.toAccountID arg.amount b,
        List.mem_map.mpr ⟨b, hb, rfl⟩, ?_⟩
      rw [updBalanceRow_ne _ _ _ hbt, updBalanceRow_ne _ _ _ hbf]

end GoBank

namespace GoBank

/-- C1.  The claim is refuted by the code: with a fault injected at the
first balance-delta statement (the oracle maps Step.updBal1 to an error),
the unit of work of TransferTx still returns nil — the error assigned
from addMoney is discarded by the closure's final `return nil` — so the
transaction commits (the Transfer row is appended) and the caller
receives no error.  The balance-delta error is swallowed, contradicting
the claim that every step's error propagates unchanged. -/
theorem transferTx_swallows_balance_delta_error :
    failUpd1.inject Step.updBal1 = some (Err.injected 7) ∧
    (transferTxFn failUpd1 argAB db0).2.2 = none ∧
    (TransferTx failUpd1 noTxFaults argAB db0).2.2 = none ∧
    (TransferTx failUpd1 noTxFaults argAB db0).1.transfers ≠ db0.transfers := by
  decide

/-- C2.  The claim is refuted by the code: with a fault injected at the
second balance-delta statement, TransferTx returns no error, yet the
post-state differs from the pre-state — account 1 was debited (90 against
100 before), account 2 never credited, money destroyed (total 140 against
150), and the Transfer and both Entry rows are committed and visible —
while the returned result is partially populated (its toAccount is the Go
zero Account). -/
theorem transferTx_commits_after_failed_balance_delta :
    failUpd2.inject Step.updBal2 = some (Err.injected 8) ∧
    (TransferTx failUpd2 noTxFaults argAB db0).2.2 = none ∧
    ((TransferTx failUpd2 noTxFaults argAB db0).1.findAccount 1).map
      (fun a => a.balance) = some 90 ∧
    ((TransferTx failUpd2 noTxFaults argAB db0).1.findAccount 2).map
      (fun a => a.balance) = some 50 ∧
    db0.totalBalance = 150 ∧
    (TransferTx failUpd2 noTxFaults argAB db0).1.totalBalance = 140 ∧
    (TransferTx failUpd2 noTxFaults argAB db0).1.transfers ≠ db0.transfers ∧
    (TransferTx failUpd2 noTxFaults argAB db0).1.entries ≠ db0.entries ∧
    (TransferTx failUpd2 noTxFaults argAB db0).2.1.toAccount = Account.zero := by
  decide

/-- C3.  The Transaction Coordinator's error semantics, exactly as the
claim states: when the unit of work fails and rollback also fails, the
composite error carries both; when rollback succeeds, the original error
is returned unchanged and the database is untouched; when the unit of
work succeeds, a commit failure is surfaced as-is, and a successful
commit installs the unit of work's state with no error. -/
theorem execTx_coordinator_error_semantics {σ : Type} (tf : TxFaults)
    (fn : DBState → DBState × σ × Option Err) (init : σ) (db : DBState)
    (hb : tf.beginErr = none) :
    (∀ e, (fn db).2.2 = some e →
      ((∀ rbErr, tf.rollbackErr = some rbErr →
          (execTx tf fn init db).2.2 = some (Err.composite e rbErr)) ∧
       (tf.rollbackErr = none →
          (execTx tf fn init db).2.2 = some e ∧ (execTx tf fn init db).1 = db))) ∧
    ((fn db).2.2 = none →
      ((∀ ce, tf.commitErr = some ce → (execTx tf fn init db).2.2 = some ce) ∧
       (tf.commitErr = none →
          (execTx tf fn init db).2.2 = none ∧
          (execTx tf fn init db).1 = (fn db).1))) := by
  rcases hfd : fn db with ⟨txDb, s, ferr⟩
  constructor
  · intro e he
    have hferr : ferr = some e := by
      simpa [hfd] using he
    constructor
    · intro rbErr hrb
      simp [execTx, hb, hfd, hferr, hrb]
    · intro hrb
      simp [execTx, hb, hfd, hferr, hrb]
  · intro he
    have hferr : ferr = none := by
      simpa [hfd] using he
    constructor
    · intro ce hce
      simp [execTx, hb, hfd, hferr, hce]
    · intro hce
      simp [execTx, hb, hfd, hferr, hce]

/-- Concrete witness for C3: a unit of work failing with error 1 under a
rollback that fails with error 2 yields the composite of both. -/
theorem execTx_coordinator_error_semantics_witness :
    (execTx ⟨none, none, some (Err.injected 2)⟩
        (fun d : DBState => (d, (), some (Err.injected 1))) () db0).2.2
      = some (Err.composite (Err.injected 1) (Err.injected 2)) :=
  ((execTx_coordinator_error_semantics ⟨none, none, some (Err.injected 2)⟩
      (fun d : DBState => (d, (), some (Err.injected 1))) () db0 rfl).1
    (Err.injected 1) rfl).1 (Err.injected 2) rfl

/-- C4.  The two balance deltas are applied in ascending account-id
order: the balance-update log of a healthy run extends the previous log
with (fromAccountID, -amount) first when fromAccountID < toAccountID, and
with (toAccountID, +amount) first otherwise. -/
theorem transferTx_deltas_ascending_order (arg : TransferTxParams) (db : DBState)
    (aF aT : Account)
    (hf : db.findAccount arg.fromAccountID = some aF)
    (ht : db.findAccount arg.toAccountID = some aT) :
    (TransferTx noFaults noTxFaults arg db).1.balanceTrace =
      db.balanceTrace ++
        (if arg.fromAccountID < arg.toAccountID then
          [(arg.fromAccountID, -arg.amount), (arg.toAccountID, arg.amount)]
        else
          [(arg.toAccountID, arg.amount), (arg.fromAccountID, -arg.amount)]) := by
  rcases lt_trichotomy arg.fromAccountID arg.toAccountID with hlt | heq | hgt
  · rw [TransferTx_commit _ _ _ _ _ (transferTxFn_run_lt arg db aF aT hf ht hlt)]
    simp [hlt]
  · obtain ⟨fID, tID, m⟩ := arg
    simp only at heq
    subst heq
    rw [TransferTx_commit _ _ _ _ _ (transferTxFn_run_eq fID m db aF hf)]
    simp
  · rw [TransferTx_commit _ _ _ _ _ (transferTxFn_run_gt arg db aF aT hf ht hgt)]
    have hnlt : ¬ arg.fromAccountID < arg.toAccountID := not_lt_of_gt hgt
    simp [hnlt]

/-- Concrete witness for C4 at the fixture transfer 1 → 2 of 10. -/
theorem transferTx_deltas_ascending_order_witness :
    (TransferTx noFaults noTxFaults argAB db0).1.balanceTrace =
      db0.balanceTrace ++
        (if argAB.fromAccountID < argAB.toAccountID then
          [(argAB.fromAccountID, -argAB.amount), (argAB.toAccountID, argAB.amount)]
        else
          [(argAB.toAccountID, argAB.amount), (argAB.fromAccountID, -argAB.amount)]) :=
  transferTx_deltas_ascending_order argAB db0 acctA acctB rfl rfl

end GoBank

namespace GoBank

/-- Conservation for a whole sequence of healthy transfers, by induction
on the sequence: each step preserves the total and the set of account
ids, so existence hypotheses carry over. -/
theorem applyTransfers_totalBalance (ps : List TransferTxParams) : ∀ db : DBState,
    (db.accounts.map (fun a => a.id)).Nodup →
    (∀ p ∈ ps, (db.findAccount p.fromAccountID).isSome = true ∧
      (db.findAccount p.toAccountID).isSome = true) →
    (applyTransfers ps db).totalBalance = db.totalBalance := by
  induction ps with
  | nil =>
    intro db _ _
    rfl
  | cons p ps ih =>
    intro db hnd hex
    obtain ⟨hfs, hts⟩ := hex p (List.mem_cons_self p ps)
    obtain ⟨aF, hf⟩ := Option.isSome_iff_exists.mp hfs
    obtain ⟨aT, ht⟩ := Option.isSome_iff_exists.mp hts
    have hstep := transferTx_step_facts p db aF aT hnd hf ht
    have happly : applyTransfers (p :: ps) db
        = applyTransfers ps (TransferTx noFaults noTxFaults p db).1 := rfl
    rw [happly, ih _ (by rw [hstep.2]; exact hnd) ?_, hstep.1]
    intro q hq
    have hq' := hex q (List.mem_cons_of_mem _ hq)
    constructor
    · rw [findAccount_isSome_iff_mem, hstep.2, ← findAccount_isSome_iff_mem]
      exact hq'.1
    · rw [findAccount_isSome_iff_mem, hstep.2, ← findAccount_isSome_iff_mem]
      exact hq'.2

/-- C5.  Conservation: any sequence of healthy transfer invocations over
existing accounts leaves the sum of all balances unchanged, and each
single transfer applies exactly -amount to the from-account, +amount to
the to-account, and leaves every other account row untouched. -/
theorem transfers_conserve_total_balance (db : DBState) (ps : List TransferTxParams)
    (hnd : (db.accounts.map (fun a => a.id)).Nodup)
    (hex : ∀ p ∈ ps, (db.findAccount p.fromAccountID).isSome = true ∧
      (db.findAccount p.toAccountID).isSome = true) :
    (applyTransfers ps db).totalBalance = db.totalBalance ∧
    (∀ (arg : TransferTxParams) (aF aT : Account),
      db.findAccount arg.fromAccountID = some aF →
      db.findAccount arg.toAccountID = some aT →
      arg.fromAccountID ≠ arg.toAccountID →
      ((TransferTx noFaults noTxFaults arg db).1.findAccount arg.fromAccountID).map
          (fun a => a.balance) = some (aF.balance - arg.amount) ∧
      ((TransferTx noFaults noTxFaults arg db).1.findAccount arg.toAccountID).map
          (fun a => a.balance) = some (aT.balance + arg.amount) ∧
      ∀ b ∈ db.accounts, b.id ≠ arg.fromAccountID → b.id ≠ arg.toAccountID →
        b ∈ (TransferTx noFaults noTxFaults arg db).1.accounts) :=
  ⟨applyTransfers_totalBalance ps db hnd hex,
   fun arg aF aT hf ht hne => transferTx_balances arg db aF aT hf ht hne⟩

/-- Concrete witness for C5: 1 → 2 of 10, then 2 → 1 of 5, on the fixture
database; the total stays 150. -/
theorem transfers_conserve_total_balance_witness :
    (applyTransfers [⟨1, 2, 10⟩, ⟨2, 1, 5⟩] db0).totalBalance = db0.totalBalance :=
  (transfers_conserve_total_balance db0 [⟨1, 2, 10⟩, ⟨2, 1, 5⟩]
    (by decide) (by decide)).1

/-- C6.  Entry symmetry: every committed transfer creates exactly two
entries, -amount on the from-account and +amount on the to-account,
summing to zero and each equal to ± the Transfer's Amount. -/
theorem transferTx_entry_symmetry (arg : TransferTxParams) (db : DBState)
    (aF aT : Account)
    (hf : db.findAccount arg.fromAccountID = some aF)
    (ht : db.findAccount arg.toAccountID = some aT) :
    (TransferTx noFaults noTxFaults arg db).2.2 = none ∧
    (TransferTx noFaults noTxFaults arg db).2.1.fromEntry.accountID
      = arg.fromAccountID ∧
    (TransferTx noFaults noTxFaults arg db).2.1.fromEntry.amount = -arg.amount ∧
    (TransferTx noFaults noTxFaults arg db).2.1.toEntry.accountID = arg.toAccountID ∧
    (TransferTx noFaults noTxFaults arg db).2.1.toEntry.amount = arg.amount ∧
    (TransferTx noFaults noTxFaults arg db).2.1.fromEntry.amount
      + (TransferTx noFaults noTxFaults arg db).2.1.toEntry.amount = 0 ∧
    (TransferTx noFaults noTxFaults arg db).2.1.transfer.amount = arg.amount ∧
    (TransferTx noFaults noTxFaults arg db).1.entries =
      db.entries ++ [(TransferTx noFaults noTxFaults arg db).2.1.fromEntry,
        (TransferTx noFaults noTxFaults arg db).2.1.toEntry] := by
  rcases lt_trichotomy arg.fromAccountID arg.toAccountID with hlt | heq | hgt
  · rw [TransferTx_commit _ _ _ _ _ (transferTxFn_run_lt arg db aF aT hf ht hlt)]
    simp
  · obtain ⟨fID, tID, m⟩ := arg
    simp only at heq
    subst heq
    rw [TransferTx_commit _ _ _ _ _ (transferTxFn_run_eq fID m db aF hf)]
    simp
  · rw [TransferTx_commit _ _ _ _ _ (transferTxFn_run_gt arg db aF aT hf ht hgt)]
    simp

/-- Concrete witness for C6 at the fixture transfer 1 → 2 of 10. -/
theorem transferTx_entry_symmetry_witness :
    (TransferTx noFaults noTxFaults argAB db0).2.2 = none ∧
    (TransferTx noFaults noTxFaults argAB db0).2.1.fromEntry.accountID
      = argAB.fromAccountID ∧
    (TransferTx noFaults noTxFaults argAB db0).2.1.fromEntry.amount = -argAB.amount ∧
    (TransferTx noFaults noTxFaults argAB db0).2.1.toEntry.accountID
      = argAB.toAccountID ∧
    (TransferTx noFaults noTxFaults argAB db0).2.1.toEntry.amount = argAB.amount ∧
    (TransferTx noFaults noTxFaults argAB db0).2.1.fromEntry.amount
      + (TransferTx noFaults noTxFaults argAB db0).2.1.toEntry.amount = 0 ∧
    (TransferTx noFaults noTxFaults argAB db0).2.1.transfer.amount = argAB.amount ∧
    (TransferTx noFaults noTxFaults argAB db0).1.entries =
      db0.entries ++ [(TransferTx noFaults noTxFaults argAB db0).2.1.fromEntry,
        (TransferTx noFaults noTxFaults argAB db0).2.1.toEntry] :=
  transferTx_entry_symmetry argAB db0 acctA acctB rfl rfl

/-- C7.  UpdateAccountBalanceByID is a single in-engine read-modify-write:
with the account present it returns ok with the post-update row whose
balance is the previous stored balance plus the delta, installs exactly
that increment in the table, and the row update touches neither id,
owner, currency nor created_at of any row. -/
theorem updateAccountBalance_atomic_delta (s : Step) (db : DBState) (i δ : Int)
    (a : Account) (h : db.findAccount i = some a) :
    updateAccountBalanceByID noFaults s db i δ =
      Except.ok ({ a with balance := a.balance + δ },
        { db with accounts := db.accounts.map (updBalanceRow i δ),
                  balanceTrace := db.balanceTrace ++ [(i, δ)] }) ∧
    ∀ b : Account, (updBalanceRow i δ b).id = b.id
      ∧ (updBalanceRow i δ b).owner = b.owner
      ∧ (updBalanceRow i δ b).currency = b.currency
      ∧ (updBalanceRow i δ b).createdAt = b.createdAt :=
  ⟨updateBalance_ok s db i δ a h,
   fun b => ⟨updBalanceRow_id i δ b, updBalanceRow_owner i δ b,
     updBalanceRow_currency i δ b, updBalanceRow_createdAt i δ b⟩⟩

/-- Concrete witness for C7: delta 5 on fixture account 1. -/
theorem updateAccountBalance_atomic_delta_witness :
    updateAccountBalanceByID noFaults Step.updBal1 db0 1 5 =
      Except.ok ({ acctA with balance := acctA.balance + 5 },
        { db0 with accounts := db0.accounts.map (updBalanceRow 1 5),
                   balanceTrace := db0.balanceTrace ++ [(1, 5)] }) ∧
    ∀ b : Account, (updBalanceRow 1 5 b).id = b.id
      ∧ (updBalanceRow 1 5 b).owner = b.owner
      ∧ (updBalanceRow 1 5 b).currency = b.currency
      ∧ (updBalanceRow 1 5 b).createdAt = b.createdAt :=
  updateAccountBalance_atomic_delta Step.updBal1 db0 1 5 acctA rfl

end GoBank

namespace GoBank

/-- Evaluation of the lock-acquisition sequence of one healthy transfer:
always the two account ids in ascending order. -/
theorem lockSeq_eval (f t m : Int) (db : DBState) (aF aT : Account)
    (hf : db.findAccount f = some aF) (ht : db.findAccount t = some aT) :
    lockSeq ⟨f, t, m⟩ db = if f < t then [f, t] else [t, f] := by
  rcases lt_trichotomy f t with hlt | heq | hgt
  · rw [lockSeq, transferTxFn_run_lt ⟨f, t, m⟩ db aF aT hf ht hlt]
    simp [hlt, List.append_assoc, List.drop_left]
  · subst heq
    rw [lockSeq, transferTxFn_run_eq f m db aF hf]
    simp [List.append_assoc, List.drop_left]
  · rw [lockSeq, transferTxFn_run_gt ⟨f, t, m⟩ db aF aT hf ht hgt]
    simp [not_lt_of_gt hgt, List.append_assoc, List.drop_left]

/-- In a two-lock sequence the earlier lock is the head and the later the
second element. -/
theorem acquiresBefore_pair (u v x y : Int) (h : acquiresBefore [u, v] x y) :
    x = u ∧ y = v := by
  obtain ⟨i, j, hij, hx, hy⟩ := h
  have hj : j < 2 := by
    by_contra hc
    push_neg at hc
    rw [List.get?_eq_none.mpr (by simpa using hc)] at hy
    exact Option.noConfusion hy
  have hi0 : i = 0 := by omega
  have hj1 : j = 1 := by omega
  subst hi0
  subst hj1
  simp only [List.get?] at hx hy
  exact ⟨(Option.some.injEq _ _ ▸ hx).symm, (Option.some.injEq _ _ ▸ hy).symm⟩

/-- Two transactions that request two distinct locks in the same order
can never be in a circular wait. -/
theorem no_circular_wait_pair (u v : Int) (huv : u ≠ v) :
    ¬ circularWait [u, v] [u, v] := by
  rintro ⟨x, y, h1, h2⟩
  obtain ⟨hxu, _⟩ := acquiresBefore_pair u v x y h1
  obtain ⟨_, hxv⟩ := acquiresBefore_pair u v y x h2
  exact huv (hxu ▸ hxv ▸ rfl)

/-- C8.  Two concurrent transfers between the same pair of accounts in
opposite directions request their row locks in the same ascending-id
order, so a circular wait between them — the only shape a row-lock
deadlock between two transactions can take — is impossible. -/
theorem alternating_transfers_no_circular_wait (A B m1 m2 : Int)
    (db1 db2 : DBState) (a1 b1 a2 b2 : Account)
    (h1A : db1.findAccount A = some a1) (h1B : db1.findAccount B = some b1)
    (h2A : db2.findAccount A = some a2) (h2B : db2.findAccount B = some b2)
    (hAB : A ≠ B) :
    lockSeq ⟨A, B, m1⟩ db1 = lockSeq ⟨B, A, m2⟩ db2 ∧
    ¬ circularWait (lockSeq ⟨A, B, m1⟩ db1) (lockSeq ⟨B, A, m2⟩ db2) := by
  rw [lockSeq_eval A B m1 db1 a1 b1 h1A h1B, lockSeq_eval B A m2 db2 b2 a2 h2B h2A]
  rcases lt_or_gt_of_ne hAB with hlt | hgt
  · have hnlt : ¬ B < A := not_lt_of_gt hlt
    simp only [if_pos hlt, if_neg hnlt]
    exact ⟨trivial, no_circular_wait_pair A B hAB⟩
  · have hnlt : ¬ A < B := not_lt_of_gt hgt
    simp only [if_neg hnlt, if_pos hgt]
    exact ⟨trivial, no_circular_wait_pair B A hAB.symm⟩

/-- Concrete witness for C8: opposite transfers between fixture accounts
1 and 2 share the lock order and cannot circular-wait. -/
theorem alternating_transfers_no_circular_wait_witness :
    lockSeq ⟨1, 2, 10⟩ db0 = lockSeq ⟨2, 1, 7⟩ db0 ∧
    ¬ circularWait (lockSeq ⟨1, 2, 10⟩ db0) (lockSeq ⟨2, 1, 7⟩ db0) :=
  alternating_transfers_no_circular_wait 1 2 10 7 db0 db0 acctA acctB acctA acctB
    rfl rfl rfl rfl (by decide)

/-- C9.  The claim is refuted by the code: the handler's 404 branch
tests `err == sql.ErrNoRows`, but the pgx/v5-backed store reports an
absent account with pgx's distinct no-rows error value, which is never
equal to that sentinel.  So a well-formed request for an absent account
is answered 500, not 404; the 404 branch fires only when the store is
replaced by one returning sql.ErrNoRows itself, exactly what the
handler's own mock-store test does — evidence that absent → 404 is the
intended behavior and the sentinel comparison is the slip. -/
theorem getAccount_absent_account_maps_to_500 :
    getAccountById db0 3 = Except.error Err.noRows ∧
    Err.noRows ≠ Err.sqlErrNoRows ∧
    getAccount (some 3) (getAccountById db0) = ⟨500, none, true⟩ ∧
    getAccount (some 3) (fun _ => Except.error Err.sqlErrNoRows)
      = ⟨404, none, true⟩ :=
  ⟨rfl, by decide, rfl, rfl⟩

/-- C10.  A transfer whose from- and to-account coincide is not rejected:
the else-branch runs, a Transfer row referencing that account on both
sides and two Entries of -amount and +amount on it are created, +amount
is applied before -amount, and the call returns success with the
account's balance unchanged net. -/
theorem transferTx_same_account_not_rejected (A m : Int) (db : DBState) (aA : Account)
    (h : db.findAccount A = some aA) :
    (TransferTx noFaults noTxFaults ⟨A, A, m⟩ db).2.2 = none ∧
    (TransferTx noFaults noTxFaults ⟨A, A, m⟩ db).1.transfers =
      db.transfers ++ [⟨db.nextTransferID, A, A, m⟩] ∧
    (TransferTx noFaults noTxFaults ⟨A, A, m⟩ db).2.1.fromEntry
      = ⟨db.nextEntryID, A, -m⟩ ∧
    (TransferTx noFaults noTxFaults ⟨A, A, m⟩ db).2.1.toEntry
      = ⟨db.nextEntryID + 1, A, m⟩ ∧
    (TransferTx noFaults noTxFaults ⟨A, A, m⟩ db).1.entries =
      db.entries ++ [⟨db.nextEntryID, A, -m⟩, ⟨db.nextEntryID + 1, A, m⟩] ∧
    (TransferTx noFaults noTxFaults ⟨A, A, m⟩ db).1.balanceTrace =
      db.balanceTrace ++ [(A, m), (A, -m)] ∧
    ((TransferTx noFaults noTxFaults ⟨A, A, m⟩ db).1.findAccount A).map
      (fun a => a.balance) = some aA.balance := by
  have haid : aA.id = A := findAccount_id db _ aA h
  rw [TransferTx_commit _ _ _ _ _ (transferTxFn_run_eq A m db aA h)]
  refine ⟨rfl, rfl, rfl, rfl, by simp, by simp, ?_⟩
  have h1 : updBalanceRow A m aA = { aA with balance := aA.balance + m } :=
    updBalanceRow_eq _ _ _ haid
  have h2 : updBalanceRow A (-m) ({ aA with balance := aA.balance + m })
      = { aA with balance := aA.balance + m + -m } :=
    updBalanceRow_eq _ _ _ (by simpa using haid)
  simp only [DBState.findAccount] at h ⊢
  rw [find?_map_map_updBalanceRow, h]
  simp [h1, h2]

/-- Concrete witness for C10: a self-transfer of 25 on fixture account 1
succeeds and leaves its balance at 100. -/
theorem transferTx_same_account_not_rejected_witness :
    (TransferTx noFaults noTxFaults ⟨1, 1, 25⟩ db0).2.2 = none ∧
    (TransferTx noFaults noTxFaults ⟨1, 1, 25⟩ db0).1.transfers =
      db0.transfers ++ [⟨db0.nextTransferID, 1, 1, 25⟩] ∧
    (TransferTx noFaults noTxFaults ⟨1, 1, 25⟩ db0).2.1.fromEntry
      = ⟨db0.nextEntryID, 1, -25⟩ ∧
    (TransferTx noFaults noTxFaults ⟨1, 1, 25⟩ db0).2.1.toEntry
      = ⟨db0.nextEntryID + 1, 1, 25⟩ ∧
    (TransferTx noFaults noTxFaults ⟨1, 1, 25⟩ db0).1.entries =
      db0.entries ++ [⟨db0.nextEntryID, 1, -25⟩, ⟨db0.nextEntryID + 1, 1, 25⟩] ∧
    (TransferTx noFaults noTxFaults ⟨1, 1, 25⟩ db0).1.balanceTrace =
      db0.balanceTrace ++ [(1, 25), (1, -25)] ∧
    ((TransferTx noFaults noTxFaults ⟨1, 1, 25⟩ db0).1.findAccount 1).map
      (fun a => a.balance) = some acctA.balance :=
  transferTx_same_account_not_rejected 1 25 db0 acctA rfl

end GoBank
